import Mathlib

/-!
Shallow embedding of `chain_bridge.go` from the taproot-assets repository:
the `LndRpcChainBridge` chain-access bridge (timestamp LRU cache, memoized
`GetBlockHeader` capability flag, block verification) and the
`LndMsgTransportClient` message transport.

Backend RPC calls (the `lndclient.LndServices` handle) are modelled as pure
fields returning `Except Err _`; each bridge operation additionally returns
the list of backend calls it performed, in order, so that claims about which
RPCs an operation invokes can be stated.  Stateful methods (the capability
flag and the timestamp cache live on the bridge struct) are modelled by
explicit state passing.
-/

namespace ChainBridge

/-- A block hash (`chainhash.Hash`), modelled as an opaque value with
decidable equality. -/
abbrev Hash := Nat

/-- Error values.  Go `error`s are modelled structurally: `raw` is an
arbitrary error produced by the backend or a library, `wrapped ctx e` is
`fmt.Errorf(ctx ++ ": %w", e)` (context added by the bridge), and
`heightMismatch` is the block-hash/height mismatch error built in
`VerifyBlock` (it wraps no backend error). -/
inductive Err where
  | raw (msg : String)
  | wrapped (ctx : String) (e : Err)
  | heightMismatch (height : Nat) (hashAtHeight : Hash) (expectedHash : Hash)
deriving DecidableEq, Repr

/-- `true` exactly when the error is a backend error wrapped with added
context by the bridge. -/
def Err.isWrapped : Err → Bool
  | .wrapped _ _ => true
  | _ => false

/-- `true` when the error is a surfaced backend failure (raw or wrapped);
the `heightMismatch` verification error is not a backend failure. -/
def Err.isBackendFailure : Err → Bool
  | .raw _ => true
  | .wrapped _ _ => true
  | .heightMismatch _ _ _ => false

/-- `wire.BlockHeader`.  `hashVal` models the computed `header.BlockHash()`
and `timestamp` models `header.Timestamp.Unix()` (an int64 of Unix
seconds). -/
structure BlockHeader where
  hashVal : Hash
  timestamp : Int
deriving DecidableEq, Repr

/-- `header.BlockHash()`. -/
def BlockHeader.blockHash (h : BlockHeader) : Hash := h.hashVal

/-- `wire.MsgBlock`, reduced to its header (the only field the bridge
reads). -/
structure MsgBlock where
  header : BlockHeader
deriving DecidableEq, Repr

/-- `wire.MsgTx`, opaque. -/
structure MsgTx where
  txid : Nat
deriving DecidableEq, Repr

/-- `verrpc.Version` (the backend's reported version). -/
structure Version where
  appMajor : Nat
  appMinor : Nat
  appPatch : Nat
deriving DecidableEq, Repr

/-- `lndclient.AssertVersionCompatible(actual, minimal)` (external library):
compares (major, minor, patch) lexicographically and returns an error
exactly when `actual` is older than `minimal`. -/
def assertVersionCompatible (actual minimal : Version) : Option String :=
  if actual.appMajor > minimal.appMajor then none
  else if actual.appMajor < minimal.appMajor then some "version incompatible"
  else if actual.appMinor > minimal.appMinor then none
  else if actual.appMinor < minimal.appMinor then some "version incompatible"
  else if actual.appPatch > minimal.appPatch then none
  else if actual.appPatch < minimal.appPatch then some "version incompatible"
  else none

/-- `type cacheableTimestamp uint32`: a block timestamp stored in the cache,
an unsigned 32-bit value. -/
abbrev cacheableTimestamp := Fin (2 ^ 32)

/-- `lru.Cache` from `neutrino/cache/lru` (external library), modelled as an
association list ordered by recency, most-recently-used first, with a fixed
capacity.  Each entry has size 1 (matching `cacheableTimestamp.Size`). -/
structure LruCache (K V : Type) where
  capacity : Nat
  entries : List (K × V)
deriving Repr

namespace LruCache

variable {K V : Type} [DecidableEq K]

/-- `lru.NewCache(capacity)`. -/
def new (K V : Type) (capacity : Nat) : LruCache K V :=
  { capacity := capacity, entries := [] }

/-- The entries with key `k` removed. -/
def removeKey (c : LruCache K V) (k : K) : List (K × V) :=
  c.entries.filter (fun q => !(q.1 = k : Bool))

/-- `Cache.Get(key)`: on a hit returns the value and refreshes the entry's
recency (moves it to the front); on a miss (`ErrElementNotFound` in Go,
`none` here) the cache is unchanged. -/
def get (c : LruCache K V) (k : K) : Option V × LruCache K V :=
  match c.entries.find? (fun q => (q.1 = k : Bool)) with
  | none => (none, c)
  | some q => (some q.2, { c with entries := (k, q.2) :: c.removeKey k })

/-- `Cache.Put(key, value)`: removes any existing entry for the key, evicts
the least-recently-used entry (the back of the list) if the cache is at
capacity, then inserts the new entry as most-recently-used. -/
def put (c : LruCache K V) (k : K) (v : V) : LruCache K V :=
  let rest := c.removeKey k
  let rest := if c.capacity ≤ rest.length then rest.dropLast else rest
  { c with entries := (k, v) :: rest }

end LruCache

/-- `maxNumBlocksInCache`: the fixed timestamp-cache capacity. -/
def maxNumBlocksInCache : Nat := 100000

/-- `tapdb.AssetStore`, opaque (the bridge only stores the handle). -/
structure AssetStore where
  dummy : Unit
deriving DecidableEq, Repr

/-- The envelope passed to `SendCustomMessage`
(`lndclient.CustomMessage`): peer vertex (serialized public key),
uint32 message-type code, payload bytes. -/
structure CustomMessage where
  peer : List Nat
  msgType : Nat
  data : List Nat
deriving DecidableEq, Repr

/-- One backend RPC invocation, recorded in an operation's call trace. -/
inductive Call where
  | getBlock (h : Hash)
  | getBlockHeader (h : Hash)
  | getBlockHash (height : Int)
  | versionCompare
  | getInfo
  | publishTransaction (tx : MsgTx) (label : String)
  | estimateFeeRate (confTarget : Int)
  | registerBlockEpoch
  | registerConfirmations
  | sendCustomMessage (m : CustomMessage)
deriving DecidableEq, Repr

/-- `true` for a `getBlock` backend call. -/
def Call.isGetBlock : Call → Bool
  | .getBlock _ => true
  | _ => false

/-- `true` for a `getBlockHeader` backend call. -/
def Call.isGetBlockHeader : Call → Bool
  | .getBlockHeader _ => true
  | _ => false

/-- `true` for a `getBlockHash` backend call. -/
def Call.isGetBlockHash : Call → Bool
  | .getBlockHash _ => true
  | _ => false

/-- `true` for the backend version comparison performed by the capability
check. -/
def Call.isVersionCompare : Call → Bool
  | .versionCompare => true
  | _ => false

/-- The `lndclient.LndServices` backend handle: every RPC the bridge
consumes, as a pure (per-argument deterministic) fallible function. -/
structure LndServices where
  getBlock : Hash → Except Err MsgBlock
  getBlockHeader : Hash → Except Err BlockHeader
  getBlockHash : Int → Except Err Hash
  version : Version
  getInfo : Except Err Nat
  publishTransaction : MsgTx → String → Except Err Unit
  estimateFeeRate : Int → Except Err Nat
  registerBlockEpochNtfn : Except Err Unit
  registerConfirmationsNtfn : Except Err Unit
  sendCustomMessage : CustomMessage → Except Err Unit

/-- `LndRpcChainBridge`: the backend handle plus the bridge's mutable
state (`getBlockHeaderSupported *bool` and the timestamp cache). -/
structure LndRpcChainBridge where
  lnd : LndServices
  getBlockHeaderSupported : Option Bool
  blockTimestampCache : LruCache Nat cacheableTimestamp
  assetStore : AssetStore

/-- `NewLndRpcChainBridge`: fresh bridge with an empty timestamp cache of
capacity `maxNumBlocksInCache` and an unresolved capability flag. -/
def NewLndRpcChainBridge (lnd : LndServices) (assetStore : AssetStore) :
    LndRpcChainBridge :=
  { lnd := lnd
    getBlockHeaderSupported := none
    blockTimestampCache := LruCache.new Nat cacheableTimestamp maxNumBlocksInCache
    assetStore := assetStore }

/-- `LndRpcChainBridge.GetBlock`: fetches a block by hash, wrapping any
backend error with context. -/
def GetBlock (l : LndRpcChainBridge) (hash : Hash) :
    Except Err MsgBlock × List Call :=
  match l.lnd.getBlock hash with
  | .error e => (.error (.wrapped "unable to retrieve block" e), [.getBlock hash])
  | .ok b => (.ok b, [.getBlock hash])

/-- `LndRpcChainBridge.GetBlockHeader`: fetches a block header by hash,
wrapping any backend error with context. -/
def GetBlockHeader (l : LndRpcChainBridge) (hash : Hash) :
    Except Err BlockHeader × List Call :=
  match l.lnd.getBlockHeader hash with
  | .error e =>
      (.error (.wrapped "unable to retrieve block header" e), [.getBlockHeader hash])
  | .ok h => (.ok h, [.getBlockHeader hash])

/-- `LndRpcChainBridge.GetBlockHash`: fetches the canonical hash at a
height, wrapping any backend error with context. -/
def GetBlockHash (l : LndRpcChainBridge) (blockHeight : Int) :
    Except Err Hash × List Call :=
  match l.lnd.getBlockHash blockHeight with
  | .error e =>
      (.error (.wrapped "unable to retrieve block hash" e), [.getBlockHash blockHeight])
  | .ok h => (.ok h, [.getBlockHash blockHeight])

/-- `LndRpcChainBridge.GetBlockHeaderSupported`: returns whether the backend
supports the `GetBlockHeader` RPC.  On the first call it compares the
backend's version against the minimal version v0.17.1 and memoizes the
result in the `getBlockHeaderSupported` field; afterwards it returns the
memoized flag without touching the backend.  Result: the flag value, the
updated bridge, and the backend calls performed. -/
def GetBlockHeaderSupported (l : LndRpcChainBridge) :
    Bool × LndRpcChainBridge × List Call :=
  match l.getBlockHeaderSupported with
  | some b => (b, l, [])
  | none =>
      let getBlockHeaderMinimalVersion : Version :=
        { appMajor := 0, appMinor := 17, appPatch := 1 }
      let getBlockHeaderUnsupported :=
        assertVersionCompatible l.lnd.version getBlockHeaderMinimalVersion
      let supported := getBlockHeaderUnsupported.isNone
      (supported, { l with getBlockHeaderSupported := some supported },
        [.versionCompare])

/-- `LndRpcChainBridge.VerifyBlock(header, height)`: returns `none` on
success, `some err` on failure (Go returns a nil/non-nil `error`), together
with the updated bridge state and the backend calls performed, in order. -/
def VerifyBlock (l : LndRpcChainBridge) (header : BlockHeader) (height : Nat) :
    Option Err × LndRpcChainBridge × List Call :=
  if height = 0 then
    match GetBlock l header.blockHash with
    | (.error e, t) => (some e, l, t)
    | (.ok _, t) => (none, l, t)
  else
    match GetBlockHash l (Int.ofNat height) with
    | (.error e, t) => (some e, l, t)
    | (.ok hash, t) =>
        let expectedHash := header.blockHash
        if hash ≠ expectedHash then
          (some (.heightMismatch height hash expectedHash), l, t)
        else
          match GetBlockHeaderSupported l with
          | (true, l1, t1) =>
              match GetBlockHeader l1 header.blockHash with
              | (.error e, t2) => (some e, l1, t ++ t1 ++ t2)
              | (.ok _, t2) => (none, l1, t ++ t1 ++ t2)
          | (false, l1, t1) =>
              match GetBlock l1 header.blockHash with
              | (.error e, t2) => (some e, l1, t ++ t1 ++ t2)
              | (.ok _, t2) => (none, l1, t ++ t1 ++ t2)

/-- `LndRpcChainBridge.CurrentHeight`: the chain tip height via `GetInfo`,
wrapping backend errors with context. -/
def CurrentHeight (l : LndRpcChainBridge) : Except Err Nat × List Call :=
  match l.lnd.getInfo with
  | .error e => (.error (.wrapped "unable to grab block height" e), [.getInfo])
  | .ok info => (.ok info, [.getInfo])

/-- Go's `uint32(x)` conversion of an `int64`: the low 32 bits, i.e. the
value modulo `2^32` (negative inputs wrap). -/
def truncU32 (x : Int) : cacheableTimestamp :=
  ⟨(x % (2 ^ 32 : Int)).toNat, by
    have h1 : 0 ≤ x % (2 ^ 32 : Int) := Int.emod_nonneg x (by decide)
    have h2 : x % (2 ^ 32 : Int) < (2 ^ 32 : Int) :=
      Int.emod_lt_of_pos x (by decide)
    omega⟩

/-- `LndRpcChainBridge.GetBlockTimestamp(height)`: returns the block
timestamp at `height`, with the updated bridge state and the backend calls
performed.  Height 0 short-circuits to 0; a cache hit returns the cached
value; otherwise the hash at the height is fetched, then the header (or the
whole block when header queries are unsupported), the header's Unix
timestamp is truncated to `uint32`, cached, and returned.  Every failure
returns the zero sentinel instead of an error. -/
def GetBlockTimestamp (l : LndRpcChainBridge) (height : Nat) :
    Int × LndRpcChainBridge × List Call :=
  if height = 0 then
    (0, l, [])
  else
    match l.blockTimestampCache.get height with
    | (some cacheTS, cache1) =>
        (Int.ofNat cacheTS.val, { l with blockTimestampCache := cache1 }, [])
    | (none, _) =>
        match l.lnd.getBlockHash (Int.ofNat height) with
        | .error _ => (0, l, [.getBlockHash (Int.ofNat height)])
        | .ok hash =>
            match GetBlockHeaderSupported l with
            | (true, l1, t1) =>
                match GetBlockHeader l1 hash with
                | (.error _, t2) =>
                    (0, l1, .getBlockHash (Int.ofNat height) :: (t1 ++ t2))
                | (.ok header, t2) =>
                    let ts := truncU32 header.timestamp
                    (Int.ofNat ts.val,
                      { l1 with blockTimestampCache :=
                          l1.blockTimestampCache.put height ts },
                      .getBlockHash (Int.ofNat height) :: (t1 ++ t2))
            | (false, l1, t1) =>
                match l1.lnd.getBlock hash with
                | .error _ =>
                    (0, l1,
                      .getBlockHash (Int.ofNat height) :: (t1 ++ [.getBlock hash]))
                | .ok block =>
                    let ts := truncU32 block.header.timestamp
                    (Int.ofNat ts.val,
                      { l1 with blockTimestampCache :=
                          l1.blockTimestampCache.put height ts },
                      .getBlockHash (Int.ofNat height) :: (t1 ++ [.getBlock hash]))

/-- `LndRpcChainBridge.PublishTransaction`: a direct delegation to the
wallet backend with the fixed label, no error wrapping. -/
def PublishTransaction (l : LndRpcChainBridge) (tx : MsgTx) :
    Except Err Unit × List Call :=
  let label := "tapd-asset-minting"
  (l.lnd.publishTransaction tx label, [.publishTransaction tx label])

/-- `LndRpcChainBridge.EstimateFee`: a direct delegation to the wallet
backend's fee estimator, no error wrapping. -/
def EstimateFee (l : LndRpcChainBridge) (confTarget : Int) :
    Except Err Nat × List Call :=
  (l.lnd.estimateFeeRate confTarget, [.estimateFeeRate confTarget])

/-- `LndRpcChainBridge.RegisterBlockEpochNtfn`: a direct delegation to the
chain notifier, no error wrapping (streams abstracted away). -/
def RegisterBlockEpochNtfn (l : LndRpcChainBridge) :
    Except Err Unit × List Call :=
  (l.lnd.registerBlockEpochNtfn, [.registerBlockEpoch])

/-- `LndRpcChainBridge.RegisterConfirmationsNtfn`: registers a confirmation
intent; a backend registration failure is wrapped with context (streams and
cancellation abstracted away). -/
def RegisterConfirmationsNtfn (l : LndRpcChainBridge) :
    Except Err Unit × List Call :=
  match l.lnd.registerConfirmationsNtfn with
  | .error e =>
      (.error (.wrapped "unable to register for conf" e), [.registerConfirmations])
  | .ok _ => (.ok (), [.registerConfirmations])

/-- One bridge operation that may touch the bridge's mutable state, for
stating lifetime invariants over arbitrary call sequences. -/
inductive BridgeOp where
  | verifyBlock (header : BlockHeader) (height : Nat)
  | getBlockTimestamp (height : Nat)
  | getBlockHeaderSupported
deriving Repr

/-- Runs one stateful bridge operation, returning the new state and the
backend calls performed. -/
def stepOp (l : LndRpcChainBridge) : BridgeOp → LndRpcChainBridge × List Call
  | .verifyBlock header height =>
      ((VerifyBlock l header height).2.1, (VerifyBlock l header height).2.2)
  | .getBlockTimestamp height =>
      ((GetBlockTimestamp l height).2.1, (GetBlockTimestamp l height).2.2)
  | .getBlockHeaderSupported =>
      ((GetBlockHeaderSupported l).2.1, (GetBlockHeaderSupported l).2.2)

/-- Runs a sequence of stateful bridge operations, concatenating the
backend call traces. -/
def runOps (l : LndRpcChainBridge) : List BridgeOp → LndRpcChainBridge × List Call
  | [] => (l, [])
  | op :: ops =>
      let (l1, t1) := stepOp l op
      let (l2, t2) := runOps l1 ops
      (l2, t1 ++ t2)

/-- `btcec.PublicKey`, reduced to its 33-byte compressed serialization
(`SerializeCompressed`), which is all `route.NewVertex` reads. -/
structure PublicKey where
  compressed : List Nat
deriving DecidableEq, Repr

/-- `route.NewVertex(&peer)`: the vertex is the peer key's compressed
serialization. -/
def NewVertex (p : PublicKey) : List Nat := p.compressed

/-- An `lnwire.Message`: its declared uint16 message-type code
(`MsgType()`) and the result of `Encode(buf, 0)` (the wire payload, or an
encoding failure). -/
structure LnwireMessage where
  msgType : Fin (2 ^ 16)
  encode : Except Err (List Nat)

/-- `LndMsgTransportClient`: the message transport client over the same
backend handle. -/
structure LndMsgTransportClient where
  lnd : LndServices

/-- `LndMsgTransportClient.SendCustomMessage`: direct delegation of the
envelope to the backend. -/
def SendCustomMessage (l : LndMsgTransportClient) (msg : CustomMessage) :
    Except Err Unit × List Call :=
  (l.lnd.sendCustomMessage msg, [.sendCustomMessage msg])

/-- `LndMsgTransportClient.SendMessage(peer, msg)`: encodes the typed
message; on failure returns a wrapped encoding error without any network
call; on success forwards an envelope carrying the peer's vertex, the
message-type code widened to uint32, and the payload bytes. -/
def SendMessage (l : LndMsgTransportClient) (peer : PublicKey)
    (msg : LnwireMessage) : Except Err Unit × List Call :=
  match msg.encode with
  | .error e => (.error (.wrapped "unable to encode message" e), [])
  | .ok buf =>
      SendCustomMessage l
        { peer := NewVertex peer
          msgType := msg.msgType.val
          data := buf }

/-- `LruCache.putMany`: folds a sequence of `put` operations over a cache,
for stating capacity invariants over arbitrary insertion sequences. -/
def LruCache.putMany {K V : Type} [DecidableEq K] (c : LruCache K V) :
    List (K × V) → LruCache K V
  | [] => c
  | (k, v) :: rest => LruCache.putMany (c.put k v) rest

/-- Test backend: height 7 resolves to hash 5; hash 5 resolves to a block
whose header has hash 5 and Unix timestamp `2^32 + 5`; version v0.18.0
(header queries supported); every other lookup fails. -/
def wOkServices : LndServices :=
  { getBlock := fun h =>
      if h = 5 then .ok ⟨⟨5, 4294967301⟩⟩ else .error (.raw "no block")
    getBlockHeader := fun h =>
      if h = 5 then .ok ⟨5, 4294967301⟩ else .error (.raw "no header")
    getBlockHash := fun ht => if ht = 7 then .ok 5 else .error (.raw "no hash")
    version := ⟨0, 18, 0⟩
    getInfo := .ok 99
    publishTransaction := fun _ _ => .ok ()
    estimateFeeRate := fun _ => .ok 250
    registerBlockEpochNtfn := .ok ()
    registerConfirmationsNtfn := .ok ()
    sendCustomMessage := fun _ => .ok () }

/-- Test backend with version v0.17.0 (header queries unsupported),
otherwise like `wOkServices`. -/
def wOldServices : LndServices :=
  { wOkServices with version := ⟨0, 17, 0⟩ }

/-- Test backend where every call fails with the raw error `"boom"`
(version v0.18.0, header queries supported). -/
def wFailServices : LndServices :=
  { getBlock := fun _ => .error (.raw "boom")
    getBlockHeader := fun _ => .error (.raw "boom")
    getBlockHash := fun _ => .error (.raw "boom")
    version := ⟨0, 18, 0⟩
    getInfo := .error (.raw "boom")
    publishTransaction := fun _ _ => .error (.raw "boom")
    estimateFeeRate := fun _ => .error (.raw "boom")
    registerBlockEpochNtfn := .error (.raw "boom")
    registerConfirmationsNtfn := .error (.raw "boom")
    sendCustomMessage := fun _ => .error (.raw "boom") }

/-- Test backend where the hash at a height resolves but the header fetch
fails (version v0.18.0, header queries supported). -/
def wHdrFailServices : LndServices :=
  { wFailServices with
    getBlockHash := fun ht => if ht = 7 then .ok 5 else .error (.raw "no hash") }

/-- Test backend where the hash at a height resolves but the block fetch
fails, with version v0.17.0 (header queries unsupported). -/
def wBlkFailServices : LndServices :=
  { wHdrFailServices with version := ⟨0, 17, 0⟩ }

/-- Fresh bridge over `wOkServices`. -/
def wOkBridge : LndRpcChainBridge := NewLndRpcChainBridge wOkServices ⟨()⟩

/-- Fresh bridge over `wOldServices`. -/
def wOldBridge : LndRpcChainBridge := NewLndRpcChainBridge wOldServices ⟨()⟩

/-- Fresh bridge over `wFailServices`. -/
def wFailBridge : LndRpcChainBridge := NewLndRpcChainBridge wFailServices ⟨()⟩

/-- Fresh bridge over `wHdrFailServices`. -/
def wHdrFailBridge : LndRpcChainBridge := NewLndRpcChainBridge wHdrFailServices ⟨()⟩

/-- Fresh bridge over `wBlkFailServices`. -/
def wBlkFailBridge : LndRpcChainBridge := NewLndRpcChainBridge wBlkFailServices ⟨()⟩

/-- Bridge over the always-failing backend whose timestamp cache already
holds the entry `7 ↦ 42`. -/
def wCachedBridge : LndRpcChainBridge :=
  { wFailBridge with
    blockTimestampCache :=
      { capacity := maxNumBlocksInCache
        entries := [(7, ⟨42, by norm_num⟩)] } }

/-- Bridge over `wOkServices` whose capability flag is already resolved to
supported. -/
def wResolvedBridge : LndRpcChainBridge :=
  { wOkBridge with getBlockHeaderSupported := some true }

/-- Transport client over `wOkServices`. -/
def wTransport : LndMsgTransportClient := ⟨wOkServices⟩

/-- A test peer key. -/
def wPeer : PublicKey := ⟨[1, 2, 3]⟩

/-- A test message whose encoding succeeds with payload `[9, 9]`. -/
def wMsgOk : LnwireMessage := ⟨⟨17, by norm_num⟩, .ok [9, 9]⟩

/-- A test message whose encoding fails. -/
def wMsgBad : LnwireMessage := ⟨⟨17, by norm_num⟩, .error (.raw "enc")⟩

/-- A test decoder that inverts `wMsgOk`'s encoding. -/
def wDecoder (bs : List Nat) : Option LnwireMessage :=
  if bs = [9, 9] then some wMsgOk else none

/-- A concrete two-entry cache at capacity 2, for exercising eviction. -/
def wSmallCache : LruCache Nat cacheableTimestamp :=
  { capacity := 2
    entries := [(1, ⟨10, by norm_num⟩), (2, ⟨20, by norm_num⟩)] }

/-! ## Helper lemmas -/

theorem GetBlock_trace (l : LndRpcChainBridge) (h : Hash) :
    (GetBlock l h).2 = [.getBlock h] := by
  unfold GetBlock
  cases l.lnd.getBlock h <;> rfl

theorem GetBlockHeader_trace (l : LndRpcChainBridge) (h : Hash) :
    (GetBlockHeader l h).2 = [.getBlockHeader h] := by
  unfold GetBlockHeader
  cases l.lnd.getBlockHeader h <;> rfl

theorem GetBlockHash_trace (l : LndRpcChainBridge) (ht : Int) :
    (GetBlockHash l ht).2 = [.getBlockHash ht] := by
  unfold GetBlockHash
  cases l.lnd.getBlockHash ht <;> rfl

theorem GBS_of_some (l : LndRpcChainBridge) (b : Bool)
    (h : l.getBlockHeaderSupported = some b) :
    GetBlockHeaderSupported l = (b, l, []) := by
  unfold GetBlockHeaderSupported
  rw [h]

theorem GBS_of_none (l : LndRpcChainBridge)
    (h : l.getBlockHeaderSupported = none) :
    GetBlockHeaderSupported l =
      ((assertVersionCompatible l.lnd.version ⟨0, 17, 1⟩).isNone,
       { l with getBlockHeaderSupported :=
           (some ((assertVersionCompatible l.lnd.version ⟨0, 17, 1⟩).isNone)) },
       [.versionCompare]) := by
  unfold GetBlockHeaderSupported
  rw [h]

theorem GBS_lnd (l : LndRpcChainBridge) :
    ((GetBlockHeaderSupported l).2.1).lnd = l.lnd := by
  cases h : l.getBlockHeaderSupported with
  | none => rw [GBS_of_none l h]
  | some b => rw [GBS_of_some l b h]

theorem GBS_cache (l : LndRpcChainBridge) :
    ((GetBlockHeaderSupported l).2.1).blockTimestampCache =
      l.blockTimestampCache := by
  cases h : l.getBlockHeaderSupported with
  | none => rw [GBS_of_none l h]
  | some b => rw [GBS_of_some l b h]

theorem GBS_trace (l : LndRpcChainBridge) :
    (GetBlockHeaderSupported l).2.2 = [] ∨
    (GetBlockHeaderSupported l).2.2 = [.versionCompare] := by
  cases h : l.getBlockHeaderSupported with
  | none => rw [GBS_of_none l h]; exact Or.inr rfl
  | some b => rw [GBS_of_some l b h]; exact Or.inl rfl

theorem GBS_flag (l : LndRpcChainBridge) :
    ((GetBlockHeaderSupported l).2.1).getBlockHeaderSupported =
      some (GetBlockHeaderSupported l).1 := by
  cases h : l.getBlockHeaderSupported with
  | none => rw [GBS_of_none l h]
  | some b => rw [GBS_of_some l b h]; exact h

/-! ## C3: verification at height 0 -/

/-- C3: for every block header, `VerifyBlock` at height 0 performs exactly
the single backend call `getBlock(header.hash)` (in particular it never
calls `getBlockHash`), and succeeds iff that fetch succeeds. -/
theorem verifyBlock_height_zero (l : LndRpcChainBridge) (header : BlockHeader) :
    (VerifyBlock l header 0).2.2 = [.getBlock header.blockHash] ∧
    List.countP Call.isGetBlockHash (VerifyBlock l header 0).2.2 = 0 ∧
    ((VerifyBlock l header 0).1 = none ↔
      ∃ b, l.lnd.getBlock header.blockHash = Except.ok b) := by
  cases hb : l.lnd.getBlock header.blockHash <;>
    simp [VerifyBlock, GetBlock, hb, Call.isGetBlockHash]

/-! ## C1: verification height-mismatch error -/

/-- C1: for every header and height > 0, if the backend resolves the height
to a hash different from the header's own hash, `VerifyBlock` fails with the
height-mismatch error carrying the height, the hash found at that height and
the header's hash; that error is not a (raw or wrapped) backend failure. -/
theorem verifyBlock_height_mismatch (l : LndRpcChainBridge)
    (header : BlockHeader) (height : Nat) (hashAt : Hash)
    (h0 : height ≠ 0)
    (hfetch : l.lnd.getBlockHash (height : Int) = Except.ok hashAt)
    (hne : hashAt ≠ header.blockHash) :
    (VerifyBlock l header height).1 =
      some (.heightMismatch height hashAt header.blockHash) ∧
    Err.isBackendFailure (.heightMismatch height hashAt header.blockHash)
      = false ∧
    (∀ ctx e, Err.heightMismatch height hashAt header.blockHash ≠
      Err.wrapped ctx e) ∧
    (∀ s, Err.heightMismatch height hashAt header.blockHash ≠ Err.raw s) := by
  refine ⟨?_, rfl, fun ctx e h => Err.noConfusion h,
    fun s h => Err.noConfusion h⟩
  simp [VerifyBlock, h0, GetBlockHash, hfetch, hne]

/-- Witness for C1 at a concrete bridge: height 7 resolves to hash 5, the
header's own hash is 6, and verification reports the mismatch error. -/
theorem verifyBlock_height_mismatch_witness :
    (7 : Nat) ≠ 0 ∧ (5 : Hash) ≠ 6 ∧
    (VerifyBlock wOkBridge ⟨6, 0⟩ 7).1 = some (.heightMismatch 7 5 6) := by
  refine ⟨by decide, by decide, ?_⟩
  exact (verifyBlock_height_mismatch wOkBridge ⟨6, 0⟩ 7 5 (by decide) rfl
    (by decide)).1

/-! ## C2: final presence fetch on matched hash -/

/-- C2: for every header and height > 0 where the hash fetched at that
height equals the header's hash, `VerifyBlock` performs exactly one final
presence fetch — `getBlockHeader` (and no `getBlock`) when the capability
detector reports support, and `getBlock` (and no `getBlockHeader`)
otherwise — and succeeds iff that fetch succeeds. -/
theorem verifyBlock_presence_fetch (l : LndRpcChainBridge)
    (header : BlockHeader) (height : Nat) (b : Bool)
    (h0 : height ≠ 0)
    (hfetch : l.lnd.getBlockHash (height : Int) = Except.ok header.blockHash)
    (hsup : (GetBlockHeaderSupported l).1 = b) :
    List.countP Call.isGetBlockHeader (VerifyBlock l header height).2.2 =
      cond b 1 0 ∧
    List.countP Call.isGetBlock (VerifyBlock l header height).2.2 =
      cond b 0 1 ∧
    ((VerifyBlock l header height).1 = none ↔
      cond b (∃ hd, l.lnd.getBlockHeader header.blockHash = Except.ok hd)
        (∃ blk, l.lnd.getBlock header.blockHash = Except.ok blk)) := by
  rcases hs : GetBlockHeaderSupported l with ⟨s, l1, t1⟩
  have hlnd : l1.lnd = l.lnd := by
    have h := GBS_lnd l
    rw [hs] at h
    exact h
  have ht1 : t1 = [] ∨ t1 = [.versionCompare] := by
    have h := GBS_trace l
    rw [hs] at h
    exact h
  have hb : s = b := by rw [hs] at hsup; exact hsup
  subst hb
  cases s with
  | true =>
      cases hh : l.lnd.getBlockHeader header.blockHash with
      | error e =>
          rcases ht1 with ht1 | ht1 <;> subst ht1 <;>
            simp [VerifyBlock, h0, GetBlockHash, hfetch, hs, GetBlockHeader,
              hlnd, hh, Call.isGetBlockHeader, Call.isGetBlock]
      | ok hd =>
          rcases ht1 with ht1 | ht1 <;> subst ht1 <;>
            simp [VerifyBlock, h0, GetBlockHash, hfetch, hs, GetBlockHeader,
              hlnd, hh, Call.isGetBlockHeader, Call.isGetBlock]
  | false =>
      cases hh : l.lnd.getBlock header.blockHash with
      | error e =>
          rcases ht1 with ht1 | ht1 <;> subst ht1 <;>
            simp [VerifyBlock, h0, GetBlockHash, hfetch, hs, GetBlock,
              hlnd, hh, Call.isGetBlockHeader, Call.isGetBlock]
      | ok blk =>
          rcases ht1 with ht1 | ht1 <;> subst ht1 <;>
            simp [VerifyBlock, h0, GetBlockHash, hfetch, hs, GetBlock,
              hlnd, hh, Call.isGetBlockHeader, Call.isGetBlock]

/-- Witness for C2 at a concrete bridge with header queries supported:
height 7 resolves to hash 5 = the header's own hash; the trace shows one
`getBlockHeader` call, no `getBlock` call, and verification succeeds. -/
theorem verifyBlock_presence_fetch_witness :
    (7 : Nat) ≠ 0 ∧
    List.countP Call.isGetBlockHeader
      (VerifyBlock wOkBridge ⟨5, 4294967301⟩ 7).2.2 = 1 ∧
    List.countP Call.isGetBlock
      (VerifyBlock wOkBridge ⟨5, 4294967301⟩ 7).2.2 = 0 ∧
    (VerifyBlock wOkBridge ⟨5, 4294967301⟩ 7).1 = none := by
  have h := verifyBlock_presence_fetch wOkBridge ⟨5, 4294967301⟩ 7 true
    (by decide) rfl rfl
  refine ⟨by decide, h.1, h.2.1, ?_⟩
  exact h.2.2.mpr ⟨⟨5, 4294967301⟩, rfl⟩

/-! ## C4: capability memoization -/

theorem verifyBlock_flag_pres (l : LndRpcChainBridge) (header : BlockHeader)
    (height : Nat) (b : Bool) (h : l.getBlockHeaderSupported = some b) :
    ((VerifyBlock l header height).2.1).getBlockHeaderSupported = some b ∧
    List.countP Call.isVersionCompare (VerifyBlock l header height).2.2
      = 0 := by
  have hg := GBS_of_some l b h
  by_cases h0 : height = 0
  · subst h0
    cases hb : l.lnd.getBlock header.blockHash <;>
      simp [VerifyBlock, GetBlock, hb, h, Call.isVersionCompare]
  · cases hh : l.lnd.getBlockHash (height : Int) with
    | error e =>
        simp [VerifyBlock, h0, GetBlockHash, hh, h, Call.isVersionCompare]
    | ok hash =>
        by_cases hne : hash = header.blockHash
        · subst hne
          cases b with
          | true =>
              cases h2 : l.lnd.getBlockHeader header.blockHash <;>
                simp [VerifyBlock, h0, GetBlockHash, hh, hg, GetBlockHeader,
                  h2, h, Call.isVersionCompare]
          | false =>
              cases h2 : l.lnd.getBlock header.blockHash <;>
                simp [VerifyBlock, h0, GetBlockHash, hh, hg, GetBlock,
                  h2, h, Call.isVersionCompare]
        · simp [VerifyBlock, h0, GetBlockHash, hh, hne, h,
            Call.isVersionCompare]

theorem getBlockTimestamp_flag_pres (l : LndRpcChainBridge) (height : Nat)
    (b : Bool) (h : l.getBlockHeaderSupported = some b) :
    ((GetBlockTimestamp l height).2.1).getBlockHeaderSupported = some b ∧
    List.countP Call.isVersionCompare (GetBlockTimestamp l height).2.2
      = 0 := by
  have hg := GBS_of_some l b h
  by_cases h0 : height = 0
  · subst h0
    simp [GetBlockTimestamp, h]
  · rcases hget : l.blockTimestampCache.get height with ⟨o, c1⟩
    cases o with
    | some ts => simp [GetBlockTimestamp, h0, hget, h]
    | none =>
        cases hh : l.lnd.getBlockHash (height : Int) with
        | error e =>
            simp [GetBlockTimestamp, h0, hget, hh, h, Call.isVersionCompare]
        | ok hash =>
            cases b with
            | true =>
                cases h2 : l.lnd.getBlockHeader hash <;>
                  simp [GetBlockTimestamp, h0, hget, hh, hg, GetBlockHeader,
                    h2, h, Call.isVersionCompare]
            | false =>
                cases h2 : l.lnd.getBlock hash <;>
                  simp [GetBlockTimestamp, h0, hget, hh, hg, h2, h,
                    Call.isVersionCompare]

theorem stepOp_flag_pres (l : LndRpcChainBridge) (op : BridgeOp) (b : Bool)
    (h : l.getBlockHeaderSupported = some b) :
    ((stepOp l op).1).getBlockHeaderSupported = some b ∧
    List.countP Call.isVersionCompare (stepOp l op).2 = 0 := by
  cases op with
  | verifyBlock header height => exact verifyBlock_flag_pres l header height b h
  | getBlockTimestamp height => exact getBlockTimestamp_flag_pres l height b h
  | getBlockHeaderSupported => simp [stepOp, GBS_of_some l b h, h]

theorem runOps_flag_pres (ops : List BridgeOp) :
    ∀ (l : LndRpcChainBridge) (b : Bool), l.getBlockHeaderSupported = some b →
    ((runOps l ops).1).getBlockHeaderSupported = some b ∧
    List.countP Call.isVersionCompare (runOps l ops).2 = 0 := by
  induction ops with
  | nil => intro l b h; simpa [runOps] using h
  | cons op ops ih =>
      intro l b h
      obtain ⟨h1, h2⟩ := stepOp_flag_pres l op b h
      obtain ⟨h3, h4⟩ := ih _ b h1
      exact ⟨h3, by simp [runOps, List.countP_append, h2, h4]⟩

theorem verifyBlock_flag_none (l : LndRpcChainBridge) (header : BlockHeader)
    (height : Nat) (hf : l.getBlockHeaderSupported = none) :
    (List.countP Call.isVersionCompare (VerifyBlock l header height).2.2 = 0 ∧
      ((VerifyBlock l header height).2.1).getBlockHeaderSupported =
        l.getBlockHeaderSupported) ∨
    (List.countP Call.isVersionCompare (VerifyBlock l header height).2.2 = 1 ∧
      ∃ b, ((VerifyBlock l header height).2.1).getBlockHeaderSupported =
        some b) := by
  have hg := GBS_of_none l hf
  by_cases h0 : height = 0
  · subst h0
    left
    cases hb : l.lnd.getBlock header.blockHash <;>
      simp [VerifyBlock, GetBlock, hb, Call.isVersionCompare]
  · cases hh : l.lnd.getBlockHash (height : Int) with
    | error e =>
        left
        simp [VerifyBlock, h0, GetBlockHash, hh, Call.isVersionCompare]
    | ok hash =>
        by_cases hne : hash = header.blockHash
        · subst hne
          right
          cases hs : (assertVersionCompatible l.lnd.version ⟨0, 17, 1⟩).isNone
            with
          | true =>
              cases h2 : l.lnd.getBlockHeader header.blockHash <;>
                simp [VerifyBlock, h0, GetBlockHash, hh, hg, hs,
                  GetBlockHeader, h2, Call.isVersionCompare]
          | false =>
              cases h2 : l.lnd.getBlock header.blockHash <;>
                simp [VerifyBlock, h0, GetBlockHash, hh, hg, hs, GetBlock,
                  h2, Call.isVersionCompare]
        · left
          simp [VerifyBlock, h0, GetBlockHash, hh, hne, Call.isVersionCompare]

theorem getBlockTimestamp_flag_none (l : LndRpcChainBridge) (height : Nat)
    (hf : l.getBlockHeaderSupported = none) :
    (List.countP Call.isVersionCompare (GetBlockTimestamp l height).2.2 = 0 ∧
      ((GetBlockTimestamp l height).2.1).getBlockHeaderSupported =
        l.getBlockHeaderSupported) ∨
    (List.countP Call.isVersionCompare (GetBlockTimestamp l height).2.2 = 1 ∧
      ∃ b, ((GetBlockTimestamp l height).2.1).getBlockHeaderSupported =
        some b) := by
  have hg := GBS_of_none l hf
  by_cases h0 : height = 0
  · subst h0
    left
    simp [GetBlockTimestamp]
  · rcases hget : l.blockTimestampCache.get height with ⟨o, c1⟩
    cases o with
    | some ts => left; simp [GetBlockTimestamp, h0, hget]
    | none =>
        cases hh : l.lnd.getBlockHash (height : Int) with
        | error e =>
            left
            simp [GetBlockTimestamp, h0, hget, hh, Call.isVersionCompare]
        | ok hash =>
            right
            cases hs : (assertVersionCompatible l.lnd.version ⟨0, 17, 1⟩).isNone
              with
            | true =>
                cases h2 : l.lnd.getBlockHeader hash <;>
                  simp [GetBlockTimestamp, h0, hget, hh, hg, hs,
                    GetBlockHeader, h2, Call.isVersionCompare]
            | false =>
                cases h2 : l.lnd.getBlock hash <;>
                  simp [GetBlockTimestamp, h0, hget, hh, hg, hs, h2,
                    Call.isVersionCompare]

theorem stepOp_vc_cases (l : LndRpcChainBridge) (op : BridgeOp) :
    (List.countP Call.isVersionCompare (stepOp l op).2 = 0 ∧
      ((stepOp l op).1).getBlockHeaderSupported =
        l.getBlockHeaderSupported) ∨
    (List.countP Call.isVersionCompare (stepOp l op).2 = 1 ∧
      ∃ b, ((stepOp l op).1).getBlockHeaderSupported = some b) := by
  cases hf : l.getBlockHeaderSupported with
  | some b =>
      left
      obtain ⟨h1, h2⟩ := stepOp_flag_pres l op b hf
      exact ⟨h2, h1⟩
  | none =>
      cases op with
      | verifyBlock header height =>
          have h := verifyBlock_flag_none l header height hf
          rw [hf] at h
          exact h
      | getBlockTimestamp height =>
          have h := getBlockTimestamp_flag_none l height hf
          rw [hf] at h
          exact h
      | getBlockHeaderSupported =>
          right
          simp [stepOp, GBS_of_none l hf, Call.isVersionCompare]

theorem runOps_vc_le (ops : List BridgeOp) :
    ∀ l : LndRpcChainBridge,
    List.countP Call.isVersionCompare (runOps l ops).2 ≤ 1 := by
  induction ops with
  | nil => intro l; simp [runOps]
  | cons op ops ih =>
      intro l
      rcases stepOp_vc_cases l op with ⟨h1, _⟩ | ⟨h1, b, h2⟩
      · simp only [runOps, List.countP_append, h1, Nat.zero_add]
        exact ih _
      · have h3 := (runOps_flag_pres ops _ b h2).2
        simp [runOps, List.countP_append, h1, h3]

/-- C4: the header-query capability is computed at most once per bridge
instance: a memoized flag makes `GetBlockHeaderSupported` return the stored
value with no backend call and unchanged state; the first (unresolved) call
performs exactly the version comparison and stores its result; and across
any sequence of bridge operations the version comparison is performed at
most once and a resolved flag never changes. -/
theorem capability_memoized (l : LndRpcChainBridge) (b : Bool)
    (ops : List BridgeOp) :
    (l.getBlockHeaderSupported = some b →
      GetBlockHeaderSupported l = (b, l, []) ∧
      ((runOps l ops).1).getBlockHeaderSupported = some b ∧
      List.countP Call.isVersionCompare (runOps l ops).2 = 0) ∧
    List.countP Call.isVersionCompare (runOps l ops).2 ≤ 1 ∧
    (l.getBlockHeaderSupported = none →
      (GetBlockHeaderSupported l).2.2 = [.versionCompare] ∧
      ((GetBlockHeaderSupported l).2.1).getBlockHeaderSupported =
        some ((assertVersionCompatible l.lnd.version ⟨0, 17, 1⟩).isNone) ∧
      (GetBlockHeaderSupported l).1 =
        (assertVersionCompatible l.lnd.version ⟨0, 17, 1⟩).isNone) := by
  refine ⟨?_, runOps_vc_le ops l, ?_⟩
  · intro h
    obtain ⟨h1, h2⟩ := runOps_flag_pres ops l b h
    exact ⟨GBS_of_some l b h, h1, h2⟩
  · intro h
    rw [GBS_of_none l h]
    exact ⟨rfl, rfl, rfl⟩

/-- Witness for C4 at a concrete bridge with a resolved capability flag:
the call returns the memoized value with no backend call, and a run of
three stateful operations performs no version comparison. -/
theorem capability_memoized_witness :
    GetBlockHeaderSupported wResolvedBridge = (true, wResolvedBridge, []) ∧
    List.countP Call.isVersionCompare
      (runOps wResolvedBridge
        [.getBlockHeaderSupported, .verifyBlock ⟨5, 4294967301⟩ 7,
         .getBlockTimestamp 7]).2 = 0 := by
  have h := (capability_memoized wResolvedBridge true
    [.getBlockHeaderSupported, .verifyBlock ⟨5, 4294967301⟩ 7,
     .getBlockTimestamp 7]).1 rfl
  exact ⟨h.1, h.2.2⟩

/-! ## C5, C6, C10: timestamp lookup -/

theorem LruCache_get_put {K V : Type} [DecidableEq K] (c : LruCache K V)
    (k : K) (v : V) : ((c.put k v).get k).1 = some v := by
  have hp : (((k, v).1 = k : Bool)) = true := by simp
  simp [LruCache.put, LruCache.get, List.find?_cons_of_pos _ hp]

theorem cacheTS_int_range (v : cacheableTimestamp) :
    0 ≤ Int.ofNat v.val ∧ Int.ofNat v.val < 2 ^ 32 := by
  constructor
  · exact Int.ofNat_nonneg _
  · show (v.val : Int) < (2 : Int) ^ 32
    exact_mod_cast v.isLt

/-- C6: a timestamp lookup for a height > 0 that is present in the cache
returns the cached value and performs no backend call. -/
theorem getBlockTimestamp_cache_hit (l : LndRpcChainBridge) (height : Nat)
    (ts : cacheableTimestamp) (h0 : height ≠ 0)
    (hc : (l.blockTimestampCache.get height).1 = some ts) :
    (GetBlockTimestamp l height).1 = Int.ofNat ts.val ∧
    (GetBlockTimestamp l height).2.2 = [] := by
  rcases hget : l.blockTimestampCache.get height with ⟨o, c1⟩
  rw [hget] at hc
  simp only at hc
  subst hc
  constructor <;> simp [GetBlockTimestamp, h0, hget]

/-- Witness for C6: a bridge whose backend always fails but whose cache
holds `7 ↦ 42` returns 42 at height 7 with an empty backend-call trace. -/
theorem getBlockTimestamp_cache_hit_witness :
    (7 : Nat) ≠ 0 ∧
    (GetBlockTimestamp wCachedBridge 7).1 = Int.ofNat 42 ∧
    (GetBlockTimestamp wCachedBridge 7).2.2 = [] := by
  have h := getBlockTimestamp_cache_hit wCachedBridge 7 ⟨42, by norm_num⟩
    (by decide) rfl
  exact ⟨by decide, h.1, h.2⟩

/-- C5: `GetBlockTimestamp` never surfaces an error (its result type carries
none): height 0 returns 0 with no backend call, and a cache miss followed by
a backend failure at any step (`getBlockHash`, `GetBlockHeader`, or
`getBlock`) returns the zero sentinel. -/
theorem getBlockTimestamp_zero_sentinel (l : LndRpcChainBridge)
    (height : Nat) (e : Err) :
    GetBlockTimestamp l 0 = (0, l, []) ∧
    (height ≠ 0 → (l.blockTimestampCache.get height).1 = none →
      ((l.lnd.getBlockHash (height : Int) = Except.error e →
          (GetBlockTimestamp l height).1 = 0) ∧
       (∀ hash, l.lnd.getBlockHash (height : Int) = Except.ok hash →
         ((GetBlockHeaderSupported l).1 = true →
            l.lnd.getBlockHeader hash = Except.error e →
            (GetBlockTimestamp l height).1 = 0) ∧
         ((GetBlockHeaderSupported l).1 = false →
            l.lnd.getBlock hash = Except.error e →
            (GetBlockTimestamp l height).1 = 0)))) := by
  constructor
  · simp [GetBlockTimestamp]
  · intro h0 hmiss
    rcases hget : l.blockTimestampCache.get height with ⟨o, c1⟩
    rw [hget] at hmiss
    simp only at hmiss
    subst hmiss
    constructor
    · intro herr
      simp [GetBlockTimestamp, h0, hget, herr]
    · intro hash hok
      rcases hs : GetBlockHeaderSupported l with ⟨s, l1, t1⟩
      have hlnd : l1.lnd = l.lnd := by
        have h := GBS_lnd l
        rw [hs] at h
        exact h
      constructor
      · intro hsup herr
        simp only at hsup
        subst hsup
        simp [GetBlockTimestamp, h0, hget, hok, hs, GetBlockHeader, hlnd,
          herr]
      · intro hsup herr
        simp only at hsup
        subst hsup
        simp [GetBlockTimestamp, h0, hget, hok, hs, hlnd, herr]

/-- Witness for C5 at concrete bridges: height 0 short-circuits, and each
failing step (hash fetch, header fetch with support, block fetch without
support) yields the zero sentinel. -/
theorem getBlockTimestamp_zero_sentinel_witness :
    GetBlockTimestamp wFailBridge 0 = (0, wFailBridge, []) ∧
    (GetBlockTimestamp wFailBridge 7).1 = 0 ∧
    (GetBlockTimestamp wHdrFailBridge 7).1 = 0 ∧
    (GetBlockTimestamp wBlkFailBridge 7).1 = 0 := by
  refine ⟨(getBlockTimestamp_zero_sentinel wFailBridge 7 (.raw "boom")).1,
    ((getBlockTimestamp_zero_sentinel wFailBridge 7 (.raw "boom")).2
      (by decide) rfl).1 rfl, ?_, ?_⟩
  · exact ((((getBlockTimestamp_zero_sentinel wHdrFailBridge 7
      (.raw "boom")).2 (by decide) rfl).2 5 rfl).1 rfl rfl)
  · exact ((((getBlockTimestamp_zero_sentinel wBlkFailBridge 7
      (.raw "boom")).2 (by decide) rfl).2 5 rfl).2 rfl rfl)

/-- C10: the timestamp returned by `GetBlockTimestamp` is always in
`[0, 2^32)`; on a successful fresh lookup the header's 64-bit Unix timestamp
is truncated to `uint32` (wrapping modulo `2^32`) both in the returned value
and in the newly cached entry. -/
theorem getBlockTimestamp_uint32_range (l : LndRpcChainBridge)
    (height : Nat) :
    0 ≤ (GetBlockTimestamp l height).1 ∧
    (GetBlockTimestamp l height).1 < 2 ^ 32 ∧
    (∀ hash hdr, height ≠ 0 →
      (l.blockTimestampCache.get height).1 = none →
      l.lnd.getBlockHash (height : Int) = Except.ok hash →
      (GetBlockHeaderSupported l).1 = true →
      l.lnd.getBlockHeader hash = Except.ok hdr →
      (GetBlockTimestamp l height).1 =
        Int.ofNat ((hdr.timestamp % (2 ^ 32 : Int)).toNat) ∧
      (((GetBlockTimestamp l height).2.1).blockTimestampCache.get height).1 =
        some (truncU32 hdr.timestamp)) := by
  have hrange : 0 ≤ (GetBlockTimestamp l height).1 ∧
      (GetBlockTimestamp l height).1 < 2 ^ 32 := by
    by_cases h0 : height = 0
    · subst h0
      have hr : (GetBlockTimestamp l 0).1 = 0 := by simp [GetBlockTimestamp]
      rw [hr]
      norm_num
    · rcases hget : l.blockTimestampCache.get height with ⟨o, c1⟩
      cases o with
      | some ts =>
          have hr : (GetBlockTimestamp l height).1 = Int.ofNat ts.val := by
            simp [GetBlockTimestamp, h0, hget]
          rw [hr]
          exact cacheTS_int_range ts
      | none =>
          cases hh : l.lnd.getBlockHash (height : Int) with
          | error e =>
              have hr : (GetBlockTimestamp l height).1 = 0 := by
                simp [GetBlockTimestamp, h0, hget, hh]
              rw [hr]
              norm_num
          | ok hash =>
              rcases hs : GetBlockHeaderSupported l with ⟨s, l1, t1⟩
              have hlnd : l1.lnd = l.lnd := by
                have h := GBS_lnd l
                rw [hs] at h
                exact h
              cases s with
              | true =>
                  cases h2 : l.lnd.getBlockHeader hash with
                  | error e =>
                      have hr : (GetBlockTimestamp l height).1 = 0 := by
                        simp [GetBlockTimestamp, h0, hget, hh, hs,
                          GetBlockHeader, hlnd, h2]
                      rw [hr]
                      norm_num
                  | ok hdr =>
                      have hr : (GetBlockTimestamp l height).1 =
                          Int.ofNat (truncU32 hdr.timestamp).val := by
                        simp [GetBlockTimestamp, h0, hget, hh, hs,
                          GetBlockHeader, hlnd, h2]
                      rw [hr]
                      exact cacheTS_int_range _
              | false =>
                  cases h2 : l.lnd.getBlock hash with
                  | error e =>
                      have hr : (GetBlockTimestamp l height).1 = 0 := by
                        simp [GetBlockTimestamp, h0, hget, hh, hs, hlnd, h2]
                      rw [hr]
                      norm_num
                  | ok blk =>
                      have hr : (GetBlockTimestamp l height).1 =
                          Int.ofNat (truncU32 blk.header.timestamp).val := by
                        simp [GetBlockTimestamp, h0, hget, hh, hs, hlnd, h2]
                      rw [hr]
                      exact cacheTS_int_range _
  refine ⟨hrange.1, hrange.2, ?_⟩
  intro hash hdr h0 hmiss hok hsup h2
  rcases hget : l.blockTimestampCache.get height with ⟨o, c1⟩
  rw [hget] at hmiss
  simp only at hmiss
  subst hmiss
  rcases hs : GetBlockHeaderSupported l with ⟨s, l1, t1⟩
  have hlnd : l1.lnd = l.lnd := by
    have h := GBS_lnd l
    rw [hs] at h
    exact h
  have hcache : l1.blockTimestampCache = l.blockTimestampCache := by
    have h := GBS_cache l
    rw [hs] at h
    exact h
  rw [hs] at hsup
  simp only at hsup
  subst hsup
  have hstate : ((GetBlockTimestamp l height).2.1).blockTimestampCache =
      l1.blockTimestampCache.put height (truncU32 hdr.timestamp) := by
    simp [GetBlockTimestamp, h0, hget, hok, hs, GetBlockHeader, hlnd, h2]
  constructor
  · simp [GetBlockTimestamp, h0, hget, hok, hs, GetBlockHeader, hlnd, h2,
      truncU32]
  · rw [hstate]
    exact LruCache_get_put _ _ _

/-- Witness for C10: a header whose Unix timestamp is `2^32 + 5` yields the
wrapped value 5, and the truncated value is cached. -/
theorem getBlockTimestamp_uint32_range_witness :
    (GetBlockTimestamp wOkBridge 7).1 = Int.ofNat 5 ∧
    (((GetBlockTimestamp wOkBridge 7).2.1).blockTimestampCache.get 7).1 =
      some (truncU32 4294967301) := by
  have h := (getBlockTimestamp_uint32_range wOkBridge 7).2.2 5
    ⟨5, 4294967301⟩ (by decide) rfl rfl rfl rfl
  refine ⟨?_, h.2⟩
  rw [h.1]
  norm_num

/-! ## C7: timestamp-cache capacity and LRU eviction -/

theorem LruCache_put_capacity {K V : Type} [DecidableEq K]
    (c : LruCache K V) (k : K) (v : V) :
    (c.put k v).capacity = c.capacity := rfl

theorem LruCache_put_length_le {K V : Type} [DecidableEq K]
    (c : LruCache K V) (k : K) (v : V) (hcap : 1 ≤ c.capacity)
    (hlen : c.entries.length ≤ c.capacity) :
    (c.put k v).entries.length ≤ c.capacity := by
  have hr : (c.removeKey k).length ≤ c.entries.length :=
    List.length_filter_le _ _
  simp only [LruCache.put]
  by_cases hc : c.capacity ≤ (c.removeKey k).length
  · rw [if_pos hc]
    simp only [List.length_cons, List.length_dropLast]
    omega
  · rw [if_neg hc]
    simp only [List.length_cons]
    omega

theorem LruCache_putMany_inv {K V : Type} [DecidableEq K]
    (ops : List (K × V)) :
    ∀ c : LruCache K V, 1 ≤ c.capacity → c.entries.length ≤ c.capacity →
    (LruCache.putMany c ops).entries.length ≤ c.capacity ∧
    (LruCache.putMany c ops).capacity = c.capacity := by
  induction ops with
  | nil => intro c h1 h2; exact ⟨h2, rfl⟩
  | cons p ops ih =>
      intro c h1 h2
      rcases p with ⟨k, v⟩
      have h3 := LruCache_put_length_le c k v h1 h2
      have h4 := ih (c.put k v) h1 h3
      exact h4

theorem LruCache_put_evict {K V : Type} [DecidableEq K]
    (c : LruCache K V) (k : K) (v : V)
    (hlen : c.entries.length = c.capacity) (_hone : 1 ≤ c.capacity)
    (hk : ∀ p ∈ c.entries, p.1 ≠ k) :
    (c.put k v).entries = (k, v) :: c.entries.dropLast := by
  have hrm : c.removeKey k = c.entries := by
    apply List.filter_eq_self.mpr
    intro p hp
    simpa using hk p hp
  simp only [LruCache.put, hrm]
  rw [if_pos (le_of_eq hlen.symm)]

/-- C7: the timestamp cache is constructed with fixed capacity
`maxNumBlocksInCache = 100000`; any sequence of `put` operations starting
from the freshly constructed cache keeps at most 100000 entries; and a
`put` of a fresh key into a cache at capacity evicts the least-recently-used
(back) entry before inserting the new one at the front. -/
theorem timestampCache_capacity (lnd : LndServices) (store : AssetStore)
    (ops : List (Nat × cacheableTimestamp))
    (c : LruCache Nat cacheableTimestamp) (k : Nat)
    (v : cacheableTimestamp) :
    (NewLndRpcChainBridge lnd store).blockTimestampCache.capacity =
      maxNumBlocksInCache ∧
    maxNumBlocksInCache = 100000 ∧
    (LruCache.putMany (NewLndRpcChainBridge lnd store).blockTimestampCache
      ops).entries.length ≤ 100000 ∧
    (c.entries.length = c.capacity → 1 ≤ c.capacity →
      (∀ p ∈ c.entries, p.1 ≠ k) →
      (c.put k v).entries = (k, v) :: c.entries.dropLast) := by
  refine ⟨rfl, rfl, ?_, fun h1 h2 h3 => LruCache_put_evict c k v h1 h2 h3⟩
  have hcap : (NewLndRpcChainBridge lnd store).blockTimestampCache.capacity
      = 100000 := rfl
  have h := LruCache_putMany_inv ops
    (NewLndRpcChainBridge lnd store).blockTimestampCache
    (by rw [hcap]; norm_num) (by rw [hcap]; simp [NewLndRpcChainBridge, LruCache.new])
  rw [hcap] at h
  exact h.1

/-- Witness for C7: putting a fresh key into a concrete cache at capacity 2
evicts the least-recently-used entry. -/
theorem timestampCache_capacity_witness :
    wSmallCache.entries.length = wSmallCache.capacity ∧
    1 ≤ wSmallCache.capacity ∧
    (wSmallCache.put 3 ⟨30, by norm_num⟩).entries =
      (3, (⟨30, by norm_num⟩ : cacheableTimestamp)) ::
        wSmallCache.entries.dropLast := by
  refine ⟨rfl, by decide, ?_⟩
  exact (timestampCache_capacity wFailServices ⟨()⟩ [] wSmallCache 3
    ⟨30, by norm_num⟩).2.2.2 rfl (by decide) (by decide)

/-! ## C8: backend error propagation -/

/-- C8 counterexample: for the delegating operations the backend error is
surfaced unchanged, with no added operation-specific context — refuting the
claim that every backend error is wrapped with context.  At the concrete
always-failing backend, fee estimation, block-epoch registration and
transaction publication all return the raw backend error `"boom"`. -/
theorem backend_error_context_counterexample :
    (EstimateFee wFailBridge 6).1 = Except.error (.raw "boom") ∧
    Err.isWrapped (Err.raw "boom") = false ∧
    (RegisterBlockEpochNtfn wFailBridge).1 = Except.error (.raw "boom") ∧
    (PublishTransaction wFailBridge ⟨1⟩).1 = Except.error (.raw "boom") :=
  ⟨rfl, rfl, rfl, rfl⟩

/-- C8 (amended): every backend error is surfaced to the immediate caller
and the backend is invoked exactly once per operation (never retried); the
fetch/height/confirmation operations add operation-specific context, while
block-epoch registration, transaction publication and fee estimation pass
the backend error through unchanged. -/
theorem backend_errors_surfaced_once (l : LndRpcChainBridge) (e : Err)
    (hash : Hash) (tx : MsgTx) (ct : Int) :
    (l.lnd.getBlock hash = Except.error e →
      GetBlock l hash =
        (Except.error (.wrapped "unable to retrieve block" e),
         [.getBlock hash])) ∧
    (l.lnd.getBlockHeader hash = Except.error e →
      GetBlockHeader l hash =
        (Except.error (.wrapped "unable to retrieve block header" e),
         [.getBlockHeader hash])) ∧
    (l.lnd.getBlockHash ct = Except.error e →
      GetBlockHash l ct =
        (Except.error (.wrapped "unable to retrieve block hash" e),
         [.getBlockHash ct])) ∧
    (l.lnd.getInfo = Except.error e →
      CurrentHeight l =
        (Except.error (.wrapped "unable to grab block height" e),
         [.getInfo])) ∧
    (l.lnd.registerConfirmationsNtfn = Except.error e →
      RegisterConfirmationsNtfn l =
        (Except.error (.wrapped "unable to register for conf" e),
         [.registerConfirmations])) ∧
    (l.lnd.registerBlockEpochNtfn = Except.error e →
      RegisterBlockEpochNtfn l =
        (Except.error e, [.registerBlockEpoch])) ∧
    (l.lnd.publishTransaction tx "tapd-asset-minting" = Except.error e →
      PublishTransaction l tx =
        (Except.error e, [.publishTransaction tx "tapd-asset-minting"])) ∧
    (l.lnd.estimateFeeRate ct = Except.error e →
      EstimateFee l ct = (Except.error e, [.estimateFeeRate ct])) := by
  refine ⟨?_, ?_, ?_, ?_, ?_, ?_, ?_, ?_⟩ <;> intro h
  · simp [GetBlock, h]
  · simp [GetBlockHeader, h]
  · simp [GetBlockHash, h]
  · simp [CurrentHeight, h]
  · simp [RegisterConfirmationsNtfn, h]
  · simp [RegisterBlockEpochNtfn, h]
  · simp [PublishTransaction, h]
  · simp [EstimateFee, h]

/-- Witness for C8 (amended) at the always-failing backend: a wrapping
operation, and two pass-through operations, each with a single backend
call. -/
theorem backend_errors_surfaced_once_witness :
    GetBlock wFailBridge 5 =
      (Except.error (.wrapped "unable to retrieve block" (.raw "boom")),
       [.getBlock 5]) ∧
    CurrentHeight wFailBridge =
      (Except.error (.wrapped "unable to grab block height" (.raw "boom")),
       [.getInfo]) ∧
    EstimateFee wFailBridge 6 =
      (Except.error (.raw "boom"), [.estimateFeeRate 6]) := by
  have h := backend_errors_surfaced_once wFailBridge (.raw "boom") 5 ⟨1⟩ 6
  exact ⟨h.1 rfl, h.2.2.2.1 rfl, h.2.2.2.2.2.2.2 rfl⟩

/-! ## C9: typed message send -/

/-- C9: `SendMessage` encodes the typed message; on encoding failure the
error is returned with no network call; otherwise the envelope forwarded to
`SendCustomMessage` carries the peer's serialized identity, the message's
declared message-type code, and the encoded payload bytes, which any decoder
inverting the encoding maps back to the original message. -/
theorem sendMessage_envelope (l : LndMsgTransportClient) (peer : PublicKey)
    (msg : LnwireMessage) :
    (∀ e, msg.encode = Except.error e →
      SendMessage l peer msg =
        (Except.error (.wrapped "unable to encode message" e), [])) ∧
    (∀ buf, msg.encode = Except.ok buf →
      SendMessage l peer msg =
        (l.lnd.sendCustomMessage
          { peer := NewVertex peer, msgType := msg.msgType.val, data := buf },
         [.sendCustomMessage
          { peer := NewVertex peer, msgType := msg.msgType.val,
            data := buf }]) ∧
      (∀ dec : List Nat → Option LnwireMessage, dec buf = some msg →
        dec ({ peer := NewVertex peer, msgType := msg.msgType.val,
               data := buf } : CustomMessage).data = some msg)) := by
  constructor
  · intro e he
    simp [SendMessage, he]
  · intro buf hb
    refine ⟨by simp [SendMessage, hb, SendCustomMessage], ?_⟩
    intro dec hdec
    exact hdec

/-- Witness for C9: a failing encoding returns the wrapped error with an
empty call trace, and a succeeding encoding forwards the envelope with the
peer vertex, type code 17 and payload `[9, 9]`, which the test decoder maps
back to the message. -/
theorem sendMessage_envelope_witness :
    SendMessage wTransport wPeer wMsgBad =
      (Except.error (.wrapped "unable to encode message" (.raw "enc")),
       []) ∧
    SendMessage wTransport wPeer wMsgOk =
      (Except.ok (),
       [.sendCustomMessage { peer := [1, 2, 3], msgType := 17,
                              data := [9, 9] }]) ∧
    wDecoder [9, 9] = some wMsgOk := by
  have hbad := (sendMessage_envelope wTransport wPeer wMsgBad).1
    (.raw "enc") rfl
  have hok := ((sendMessage_envelope wTransport wPeer wMsgOk).2
    [9, 9] rfl).1
  refine ⟨hbad, ?_, rfl⟩
  rw [hok]
  rfl

end ChainBridge
